import Mathlib

/-!
Verification of the correlation-identifier codec, selector compiler,
message-property store and receive/async-send logic of the
mq-golang-jms20 library (package mqjms).

Go strings and byte slices are modelled as `List Nat` with every element
a byte value (< 256).  The hex primitives model the Go `encoding/hex`
package: `hex.Encode` produces lowercase hex digits, `hex.Decode` accepts
upper- and lowercase digits and fails on an odd-length input or a
non-hex byte.
-/

/-- Bytes of an ASCII Lean string literal (models a Go string literal). -/
def goStr (s : String) : List Nat := s.data.map Char.toNat

/-- Models Go `encoding/hex` fromHexChar: value of one hex-digit byte. -/
def decodeHexDigit (b : Nat) : Option Nat :=
  if 48 ≤ b ∧ b ≤ 57 then some (b - 48)
  else if 97 ≤ b ∧ b ≤ 102 then some (b - 97 + 10)
  else if 65 ≤ b ∧ b ≤ 70 then some (b - 65 + 10)
  else none

/-- Models Go `encoding/hex`: lowercase hex digit byte for a value < 16. -/
def encodeHexDigit (n : Nat) : Nat :=
  if n < 10 then 48 + n else 97 + (n - 10)

/-- Models Go `hex.Encode`/`hex.EncodeToString`: two lowercase hex-digit
bytes per input byte. -/
def hexEncodeBytes : List Nat → List Nat
  | [] => []
  | b :: rest => encodeHexDigit (b / 16) :: encodeHexDigit (b % 16) :: hexEncodeBytes rest

/-- Models Go `hex.Decode`/`hex.DecodeString` as used by the codec: `none`
when the input has odd length or contains a non-hex byte (the callers
only use the decoded bytes when Go reports no error). -/
def hexDecodeBytes : List Nat → Option (List Nat)
  | [] => some []
  | [_] => none
  | a :: b :: rest =>
    match decodeHexDigit a, decodeHexDigit b, hexDecodeBytes rest with
    | some hi, some lo, some tl => some ((16 * hi + lo) :: tl)
    | _, _, _ => none

/-- Models the trailing-zero-stripping loop of GetJMSCorrelationID
(`for realLength > 0 && bytes[realLength-1] == 0 { realLength-- }`
followed by `bytes[0:realLength]`). -/
def stripTrailingZeros (l : List Nat) : List Nat :=
  (l.reverse.dropWhile (· == 0)).reverse

/-- MessageImpl.go convertStringToMQBytes: first try to hex-decode the
string; on failure hex-encode its raw bytes into a buffer of length
`max (2*len) 24` (the tail left as zero bytes); finally truncate the
result to 48 bytes. -/
def convertStringToMQBytes (strText : List Nat) : List Nat :=
  let correlHexBytes :=
    match hexDecodeBytes strText with
    | some bs => bs
    | none =>
      let encodedLen := max (2 * strText.length) 24
      hexEncodeBytes strText ++ List.replicate (encodedLen - 2 * strText.length) 0
  if correlHexBytes.length > 48 then correlHexBytes.take 48 else correlHexBytes

/-- The body of MessageImpl.go GetJMSCorrelationID once a CorrelId byte
slice is present: strip trailing zero bytes, try to hex-decode the rest
back to text, and on a decode error fall back to the hex-string
rendering of the original (unstripped) bytes. -/
def correlBytesToString (correlIDBytes : List Nat) : List Nat :=
  match hexDecodeBytes (stripTrailingZeros correlIDBytes) with
  | some dst => dst
  | none => hexEncodeBytes correlIDBytes

/-- The MQ message descriptor fields of MessageImpl used by the
correlation-ID logic (mqmd.CorrelId; `none` models a Go nil slice). -/
structure MQMDModel where
  correlId : Option (List Nat)
  deriving DecidableEq

/-- MessageImpl.go SetJMSCorrelationID: store the converted bytes into
the message descriptor. -/
def setJMSCorrelationID (msg : MQMDModel) (correlID : List Nat) : MQMDModel :=
  { msg with correlId := some (convertStringToMQBytes correlID) }

/-- MessageImpl.go GetJMSCorrelationID: empty string when no CorrelId
bytes are stored, otherwise decode the stored bytes. -/
def getJMSCorrelationID (msg : MQMDModel) : List Nat :=
  match msg.correlId with
  | none => []
  | some bs => correlBytesToString bs

/-- SetJMSCorrelationID followed by GetJMSCorrelationID on a fresh
message. -/
def setThenGetCorrelID (s : List Nat) : List Nat :=
  getJMSCorrelationID (setJMSCorrelationID ⟨none⟩ s)

/-! ## Selector compilation (ConsumerImpl.go applySelector) -/

/-- Models Go `strings.Split` with a one-byte separator. -/
def goSplit (sep : Nat) : List Nat → List (List Nat)
  | [] => [[]]
  | b :: rest =>
    if b = sep then [] :: goSplit sep rest
    else
      match goSplit sep rest with
      | [] => [[b]]
      | h :: t => (b :: h) :: t

/-- Models Go `unicode.IsSpace` on the ASCII bytes that occur in selector
strings. -/
def isGoSpace (b : Nat) : Bool :=
  b == 32 || b == 9 || b == 10 || b == 11 || b == 12 || b == 13

/-- Models Go `strings.TrimSpace` on ASCII input. -/
def trimSpace (l : List Nat) : List Nat :=
  ((l.dropWhile isGoSpace).reverse.dropWhile isGoSpace).reverse

/-- First byte is a single quote (models the leading-quote check of the Go code). -/
def startsWithQuote (l : List Nat) : Bool :=
  match l with
  | [] => false
  | b :: _ => b == 39

/-- Last byte is a single quote (models the trailing-quote check of the Go code). -/
def endsWithQuote (l : List Nat) : Bool :=
  match l.getLast? with
  | none => false
  | some b => b == 39

/-- Strips a leading `ID:` tag (bytes 73, 68, 58) from a selector value. -/
def stripIDTag (l : List Nat) : List Nat :=
  match l with
  | 73 :: 68 :: 58 :: rest => rest
  | other => other

/-- The value between the first pair of single quotes:
element 1 of the split of the value on the quote byte, followed by the `ID:` strip. -/
def selectorInnerValue (value : List Nat) : List Nat :=
  stripIDTag ((goSplit 39 value).getD 1 [])

/-- The four `errors.New` failures of applySelector. -/
inductive SelectorError where
  /-- "Unable to parse selector" (clause does not split into exactly two
  parts around an equals sign). -/
  | unableToParseSelector
  /-- "Only selectors on JMSCorrelationID and JMSMessageID are currently
  supported". -/
  | unsupportedField
  /-- "Unable to parse quoted string from" (value not single-quote
  delimited). -/
  | unableToParseQuotedString
  /-- "No value was found for selector string". -/
  | noValueFound
  deriving DecidableEq

/-- The spec groups three of the four applySelector failures under the
`MalformedSelector` heading; only the field-name failure is
`UnsupportedSelectorField`. -/
def isMalformedSelector : SelectorError → Bool
  | .unableToParseSelector => true
  | .unableToParseQuotedString => true
  | .noValueFound => true
  | .unsupportedField => false

/-- The native filter field populated by a compiled selector. -/
inductive SelectorField where
  | correlID
  | msgID
  deriving DecidableEq

/-- ConsumerImpl.go applySelector: empty selector means no filter;
otherwise parse a quoted single-clause equality, restrict the field name to
JMSCorrelationID / JMSMessageID, strip an `ID:` tag, reject an empty
value, and convert the value with convertStringToMQBytes into the
CorrelId or MsgId match field. -/
def applySelector (selector : List Nat) :
    Except SelectorError (Option (SelectorField × List Nat)) :=
  if selector = [] then .ok none
  else
    match goSplit 61 selector with
    | [fieldPart, valuePart] =>
      let selectorFieldName := trimSpace fieldPart
      if selectorFieldName ≠ goStr "JMSCorrelationID" ∧
          selectorFieldName ≠ goStr "JMSMessageID" then
        .error .unsupportedField
      else
        let value := trimSpace valuePart
        if startsWithQuote value ∧ endsWithQuote value then
          let selectorValue := selectorInnerValue value
          if selectorValue ≠ [] then
            .ok (some
              (if selectorFieldName = goStr "JMSCorrelationID" then
                SelectorField.correlID
              else SelectorField.msgID,
              convertStringToMQBytes selectorValue))
          else .error .noValueFound
        else .error .unableToParseQuotedString
    | _ => .error .unableToParseSelector

/-! ## Message property store (MessageImpl.go) -/

/-- A typed property value.  The message property handle stores exactly
one of text, integer, double or boolean per name; the double is
modelled as a rational (every test value is exactly representable). -/
inductive PropValue where
  | str (s : List Nat)
  | int (i : Int)
  | dbl (q : Rat)
  | bool (b : Bool)
  deriving DecidableEq

/-- The transport property handle: ordered list of uniquely named
entries, iterated in insertion order by the `%`-wildcard inquire
first/next cursor. -/
abbrev PropStore := List (List Nat × PropValue)

/-- Property-related JMS exception outcomes. -/
inductive JMSPropError where
  /-- MQJMS_E_BAD_TYPE / code 1055: value cannot be converted. -/
  | badPropertyType
  /-- A failed property deletion, carrying the MQ reason code. -/
  | deleteFailed (rc : Int)
  deriving DecidableEq

/-- Models `SetMP` upsert followed by append-on-new (insertion order is
preserved, an existing name is overwritten in place). -/
def setProp : PropStore → List Nat → PropValue → PropStore
  | [], name, v => [(name, v)]
  | (n, w) :: rest, name, v =>
    if n = name then (name, v) :: rest
    else (n, w) :: setProp rest name v

/-- Models `DltMP`: removes the entry with the given name. -/
def deleteProp (store : PropStore) (name : List Nat) : PropStore :=
  store.filter (fun p => p.1 ≠ name)

/-- Looks up the stored value of a named property (models a single
`InqMP` by name; `none` is MQRC_PROPERTY_NOT_AVAILABLE). -/
def lookupProp : PropStore → List Nat → Option PropValue
  | [], _ => none
  | (n, v) :: rest, name => if n = name then some v else lookupProp rest name

/-- The cursor loop of MessageImpl.go getPropertiesInternal: with an
empty name it accumulates every property name in iteration order; with
a non-empty name it returns true on the first matching name (the
shortcut returns a nil name list). -/
def getPropsGoAux (name : List Nat) :
    PropStore → List (List Nat) → Bool × List (List Nat)
  | [], acc => (false, acc)
  | (n, _) :: rest, acc =>
    if name = [] then getPropsGoAux name rest (acc ++ [n])
    else if n = name then (true, [])
    else getPropsGoAux name rest acc

/-- MessageImpl.go getPropertiesInternal (the inquire cursor starts
before the first property and walks to exhaustion). -/
def getPropertiesInternal (store : PropStore) (name : List Nat) :
    Bool × List (List Nat) :=
  getPropsGoAux name store []

/-- MessageImpl.go PropertyExists. -/
def propertyExists (store : PropStore) (name : List Nat) : Bool :=
  (getPropertiesInternal store name).1

/-- MessageImpl.go GetPropertyNames. -/
def getPropertyNames (store : PropStore) : List (List Nat) :=
  (getPropertiesInternal store []).2

/-- Models Go `strconv.ParseInt` base 10 on the digits of a stored
string property: optional sign followed by at least one decimal digit. -/
def parseDecDigits : List Nat → Option Nat
  | [] => none
  | [b] => if 48 ≤ b ∧ b ≤ 57 then some (b - 48) else none
  | b :: rest =>
    match (if 48 ≤ b ∧ b ≤ 57 then some (b - 48) else none), parseDecDigits rest with
    | some d, some n => some (d * 10 ^ rest.length + n)
    | _, _ => none

/-- Sign handling of the decimal parse. -/
def parseGoInt (s : List Nat) : Option Int :=
  match s with
  | 45 :: rest => (parseDecDigits rest).map (fun n => -(n : Int))
  | 43 :: rest => (parseDecDigits rest).map (fun n => (n : Int))
  | other => (parseDecDigits other).map (fun n => (n : Int))

/-- Modelled from the spec: MessageImpl.GetIntProperty is not under
src/ (only its tests are).  Behaviour follows spec section 4.2 and the
in-src tests: an absent name yields the zero value with no error, a
stored int is returned directly, a stored string is parsed (parse
failure is BadPropertyType), a stored boolean maps to 1/0, and a stored
double is rounded to the nearest integer. -/
def getIntProperty (store : PropStore) (name : List Nat) :
    Int × Option JMSPropError :=
  match lookupProp store name with
  | none => (0, none)
  | some (.int i) => (i, none)
  | some (.bool b) => (if b then 1 else 0, none)
  | some (.dbl q) => (round q, none)
  | some (.str s) =>
    match parseGoInt s with
    | some i => (i, none)
    | none => (0, some .badPropertyType)

/-- Modelled from the spec: MessageImpl.GetBooleanProperty is not under
src/ (only its tests are).  Behaviour pinned by the in-src tests
TestPropertyConversionString / Int / Bool / Double: an absent name
yields false with no error; a stored boolean is returned directly; a
stored string converts only from the literal "true"/"false" (anything
else is BadPropertyType); a stored int or double converts with no error
to true exactly when the stored value equals 1 and to false otherwise
(tests assert true for stored 1 and false for 0, -1 and large values). -/
def getBooleanProperty (store : PropStore) (name : List Nat) :
    Bool × Option JMSPropError :=
  match lookupProp store name with
  | none => (false, none)
  | some (.bool b) => (b, none)
  | some (.int i) => (decide (i = 1), none)
  | some (.dbl q) => (decide (q = 1), none)
  | some (.str s) =>
    if s = goStr "true" then (true, none)
    else if s = goStr "false" then (false, none)
    else (false, some .badPropertyType)

/-- The per-name deletion loop of MessageImpl.go ClearProperties.
`failOn` injects the outcome of each `DltMP` call (`some rc` models a
failing deletion with MQ reason code `rc`). -/
def clearLoop (failOn : List Nat → Option Int) :
    List (List Nat) → PropStore → PropStore × Option JMSPropError
  | [], store => (store, none)
  | n :: rest, store =>
    match failOn n with
    | some rc => (store, some (.deleteFailed rc))
    | none => clearLoop failOn rest (deleteProp store n)

/-- MessageImpl.go ClearProperties: list every property name, then
delete them one at a time, stopping at (and returning) the first
deletion error. -/
def clearProperties (failOn : List Nat → Option Int) (store : PropStore) :
    PropStore × Option JMSPropError :=
  clearLoop failOn (getPropertyNames store) store

/-! ## Receiving messages (ConsumerImpl.go) -/

/-- MQ reason code MQRC_NO_MSG_AVAILABLE. -/
def MQRC_NO_MSG_AVAILABLE : Int := 2033

/-- MQ reason code MQRC_Q_FULL. -/
def MQRC_Q_FULL : Int := 2053

/-- Models the external `ibmmq.MQItoString("RC", rc)` lookup for the
reason codes this development touches. -/
def mqrcToString (rc : Int) : List Nat :=
  if rc = 2033 then goStr "MQRC_NO_MSG_AVAILABLE"
  else if rc = 2053 then goStr "MQRC_Q_FULL"
  else if rc = 2080 then goStr "MQRC_TRUNCATED_MSG_FAILED"
  else goStr "MQRC_UNKNOWN"

/-- Models Go `strconv.Itoa` (decimal rendering of an integer). -/
def goItoa (i : Int) : List Nat := goStr (toString i)

/-- A jms20subset.JMSException as produced by CreateJMSException:
reason text, error code text and an optional linked MQ reason code. -/
structure JMSExceptionModel where
  reason : List Nat
  errorCode : List Nat
  linkedReason : Option Int
  deriving DecidableEq

/-- The message object reconstructed by a successful receive: a
TextMessageImpl (nil body when the data length is zero) or a
BytesMessageImpl holding the buffer trimmed to the data length. -/
inductive ReceivedMessage where
  | text (body : Option (List Nat))
  | bytes (body : List Nat)
  deriving DecidableEq

/-- The result of one call of the underlying transport
`consumer.qObject.Get`: either a message (format field and the
`buffer[:datalen]` content) or an MQ reason code. -/
inductive MQGetOutcome where
  | ok (format : List Nat) (data : List Nat)
  | fail (mqrc : Int)
  deriving DecidableEq

/-- The MQMD Format value MQFMT_STRING. -/
def MQFMT_STRING : List Nat := goStr "MQSTR   "

/-- What receiveInternal hands back, together with the two side effects
the code performs on the message handle it allocated for the receive:
whether the handle was deleted in line (`DltMH`) and whether a cleanup
finalizer was installed instead. -/
structure ReceiveResult where
  msg : Option ReceivedMessage
  err : Option JMSExceptionModel
  handleDeleted : Bool
  finalizerSet : Bool
  deriving DecidableEq

/-- ConsumerImpl.go receiveInternal: parse the selector (a parse error
returns an ErrorParsingSelector exception before the transport is
called); then on a successful get build a text or bytes message and set
the handle finalizer; on MQRC_NO_MSG_AVAILABLE delete the handle and
return no message and no error; on any other reason delete the handle
and return a JMSException whose error code is the decimal reason code. -/
def receiveInternal (selector : List Nat) (getOutcome : MQGetOutcome) :
    ReceiveResult :=
  match applySelector selector with
  | .error _ =>
    { msg := none,
      err := some ⟨goStr "ErrorParsingSelector", goStr "ErrorParsingSelector", none⟩,
      handleDeleted := false, finalizerSet := false }
  | .ok _ =>
    match getOutcome with
    | .ok format data =>
      if format = MQFMT_STRING then
        { msg := some (.text (if data.length > 0 then some data else none)),
          err := none, handleDeleted := false, finalizerSet := true }
      else
        { msg := some (.bytes data),
          err := none, handleDeleted := false, finalizerSet := true }
    | .fail mqrc =>
      if mqrc = MQRC_NO_MSG_AVAILABLE then
        { msg := none, err := none, handleDeleted := true, finalizerSet := false }
      else
        { msg := none,
          err := some ⟨mqrcToString mqrc, goItoa mqrc, some mqrc⟩,
          handleDeleted := true, finalizerSet := false }

/-- ConsumerImpl.go ReceiveNoWait: a fresh MQGMO and the common receive
path (the transport reply is the `getOutcome` parameter of the model). -/
def receiveNoWait (selector : List Nat) (getOutcome : MQGetOutcome) :
    ReceiveResult :=
  receiveInternal selector getOutcome

/-- The wait interval Receive installs in the MQGMO: MQWI_UNLIMITED
(-1) when the requested wait is zero or negative. -/
def receiveWaitInterval (waitMillis : Int) : Int :=
  if waitMillis ≤ 0 then -1 else waitMillis

/-- ConsumerImpl.go Receive: sets MQGMO_WAIT with the computed wait
interval, then the common receive path. -/
def receive (selector : List Nat) (_waitMillis : Int)
    (getOutcome : MQGetOutcome) : ReceiveResult :=
  receiveInternal selector getOutcome

/-! ## Asynchronous put error checking

Modelled from the spec: the async-send controller (ProducerImpl and its
context counters) is not under src/; only its test
TestAsyncPutCheckCountWithFailure is.  Spec section 4.4: every async
send performs the fire-and-forget transport put and counts towards
`sendsSinceLastCheck`; when `sendCheckCount > 0` and the counter
reaches `sendCheckCount` the controller queries the transport for the
put warnings/failures accumulated since the last check, resets the
counter to zero, and reports one aggregated AsyncPutFailure (with the
two counts and the most specific transport reason linked) exactly when
the combined count is nonzero.  The transport is a bounded queue of
capacity `maxDepth`: a put beyond the capacity is recorded as one
accumulated failure with reason MQRC_Q_FULL. -/

/-- The aggregated error reported by a reconciliation step. -/
structure AsyncPutError where
  failures : Nat
  warnings : Nat
  linkedReason : Int
  deriving DecidableEq

/-- Counter state of the async-send controller plus the transport-side
accumulators it samples. -/
structure AsyncState where
  sendsSinceLastCheck : Nat
  qDepth : Nat
  failuresSinceCheck : Nat
  warningsSinceCheck : Nat
  deriving DecidableEq

/-- One async send: the transport put (a full queue records a failure),
then, once the counter has reached the check interval, the
reconciliation step (sample and clear the accumulated counts, reset the
counter, report when nonzero) before the counter absorbs the current
send. -/
def asyncSendOne (checkCount maxDepth : Nat) (st : AsyncState) :
    AsyncState × Option AsyncPutError :=
  let st1 :=
    if st.qDepth < maxDepth then { st with qDepth := st.qDepth + 1 }
    else { st with failuresSinceCheck := st.failuresSinceCheck + 1 }
  if checkCount ≠ 0 ∧ st1.sendsSinceLastCheck ≥ checkCount then
    let report :=
      if st1.failuresSinceCheck + st1.warningsSinceCheck ≠ 0 then
        some ⟨st1.failuresSinceCheck, st1.warningsSinceCheck, MQRC_Q_FULL⟩
      else none
    let st2 : AsyncState :=
      { sendsSinceLastCheck := 0 + 1
        qDepth := st1.qDepth
        failuresSinceCheck := 0
        warningsSinceCheck := 0 }
    (st2, report)
  else
    ({ st1 with sendsSinceLastCheck := st1.sendsSinceLastCheck + 1 }, none)

/-- The per-send reported errors of a run of `n` async sends. -/
def asyncRunAux (checkCount maxDepth : Nat) (st : AsyncState) :
    Nat → List (Option AsyncPutError)
  | 0 => []
  | n + 1 =>
    let next := asyncSendOne checkCount maxDepth st
    next.2 :: asyncRunAux checkCount maxDepth next.1 n

/-- The TestAsyncPutCheckCountWithFailure scenario: SendCheckCount 10,
a destination queue of maximum depth 25 that is never drained, and 50
async sends (numbered 0 to 49 like the test loop). -/
def asyncPutTestResults : List (Option AsyncPutError) :=
  asyncRunAux 10 25 ⟨0, 0, 0, 0⟩ 50

/-! ## Helper lemmas about the hex codec -/

theorem hexEncodeBytes_length (s : List Nat) :
    (hexEncodeBytes s).length = 2 * s.length := by
  induction s with
  | nil => simp [hexEncodeBytes]
  | cons b t ih => simp [hexEncodeBytes, ih]; omega

theorem le_encodeHexDigit (n : Nat) : 48 ≤ encodeHexDigit n := by
  unfold encodeHexDigit; split <;> omega

theorem mem_hexEncodeBytes_pos {s : List Nat} {b : Nat}
    (hb : b ∈ hexEncodeBytes s) : 48 ≤ b := by
  induction s with
  | nil => simp [hexEncodeBytes] at hb
  | cons c t ih =>
    simp only [hexEncodeBytes, List.mem_cons] at hb
    rcases hb with h | h | h
    · exact h ▸ le_encodeHexDigit _
    · exact h ▸ le_encodeHexDigit _
    · exact ih h

theorem decodeHexDigit_encodeHexDigit {d : Nat} (h : d < 16) :
    decodeHexDigit (encodeHexDigit d) = some d := by
  interval_cases d <;> decide

theorem hexDecodeBytes_hexEncodeBytes (s : List Nat)
    (h : ∀ b ∈ s, b < 256) : hexDecodeBytes (hexEncodeBytes s) = some s := by
  induction s with
  | nil => rfl
  | cons b t ih =>
    have hb : b < 256 := h b (List.mem_cons_self b t)
    have h1 : decodeHexDigit (encodeHexDigit (b / 16)) = some (b / 16) :=
      decodeHexDigit_encodeHexDigit (by omega)
    have h2 : decodeHexDigit (encodeHexDigit (b % 16)) = some (b % 16) :=
      decodeHexDigit_encodeHexDigit (by omega)
    have ht := ih (fun x hx => h x (List.mem_cons_of_mem b hx))
    simp only [hexEncodeBytes, hexDecodeBytes, h1, h2, ht]
    simp only [Option.some.injEq, List.cons.injEq, and_true]
    omega

theorem dropWhile_zero_replicate (k : Nat) (xs : List Nat) :
    (List.replicate k 0 ++ xs).dropWhile (· == 0) = xs.dropWhile (· == 0) := by
  induction k with
  | zero => simp
  | succ n ih => simp [List.replicate_succ, List.dropWhile_cons, ih]

theorem stripTrailingZeros_append_zeros (l : List Nat) (k : Nat) :
    stripTrailingZeros (l ++ List.replicate k 0) = stripTrailingZeros l := by
  unfold stripTrailingZeros
  rw [List.reverse_append, List.reverse_replicate, dropWhile_zero_replicate]

theorem dropWhile_zero_eq_self {xs : List Nat} (h : ∀ b ∈ xs, b ≠ 0) :
    xs.dropWhile (· == 0) = xs := by
  cases xs with
  | nil => rfl
  | cons a t =>
    have ha : (a == 0) = false := by
      have := h a (List.mem_cons_self a t)
      simp [this]
    simp [List.dropWhile_cons, ha]

theorem stripTrailingZeros_eq_self {l : List Nat} (h : ∀ b ∈ l, b ≠ 0) :
    stripTrailingZeros l = l := by
  unfold stripTrailingZeros
  rw [dropWhile_zero_eq_self, List.reverse_reverse]
  intro b hb
  exact h b (List.mem_reverse.mp hb)

theorem stripTrailingZeros_all_zero {l : List Nat} (h : ∀ b ∈ l, b = 0) :
    stripTrailingZeros l = [] := by
  unfold stripTrailingZeros
  have hz : l.reverse.dropWhile (· == 0) = [] := by
    rw [List.dropWhile_eq_nil_iff]
    intro x hx
    simp [h x (List.mem_reverse.mp hx)]
  rw [hz]
  rfl

theorem convertStringToMQBytes_literal_short (s : List Nat)
    (hlen : s.length ≤ 12) (hhex : hexDecodeBytes s = none) :
    convertStringToMQBytes s =
      hexEncodeBytes s ++ List.replicate (24 - 2 * s.length) 0 := by
  unfold convertStringToMQBytes
  simp only [hhex]
  have hmax : max (2 * s.length) 24 = 24 := by omega
  rw [hmax]
  have hlength :
      (hexEncodeBytes s ++ List.replicate (24 - 2 * s.length) 0).length = 24 := by
    simp [hexEncodeBytes_length]
    omega
  have hle : ¬ (hexEncodeBytes s ++
      List.replicate (24 - 2 * s.length) 0).length > 48 := by omega
  rw [if_neg hle]

/-! ## Claims about the correlation-identifier codec -/

/-- The over-24-character literal correlation ID of TestCorrelIDParsing. -/
def longCorrelStr : List Nat :=
  goStr "ThisIsAVeryLongCorrelationIDWhichIsMoreThanTwentyFourCharacters"

set_option maxRecDepth 4000 in
/-- C1 (evaluation at the failing input): the code truncates the
hex-encoded correlation buffer at 48 bytes, so the over-24-character
literal of TestCorrelIDParsing round-trips to its first 24 characters,
not to the first 12 characters that the test
(getbycorrelid_test.go line 202) and the spec require; a 13-character
literal round-trips whole, with no truncation at all. -/
theorem correlID_long_literal_eval :
    setThenGetCorrelID longCorrelStr = goStr "ThisIsAVeryLongCorrelati" ∧
    goStr "ThisIsAVeryLongCorrelati" ≠ goStr "ThisIsAVeryL" ∧
    (goStr "ALiteralOf13c").length = 13 ∧
    setThenGetCorrelID (goStr "ALiteralOf13c") = goStr "ALiteralOf13c" := by
  refine ⟨by decide, by decide, by decide, by decide⟩

/-- C3: a text string of at most 12 characters that is not itself
readable as paired hex digits round-trips exactly through
SetJMSCorrelationID / GetJMSCorrelationID. -/
theorem correlID_roundtrip_short (s : List Nat) (hlen : s.length ≤ 12)
    (hhex : hexDecodeBytes s = none) (hbytes : ∀ b ∈ s, b < 256) :
    setThenGetCorrelID s = s := by
  have henc := convertStringToMQBytes_literal_short s hlen hhex
  show correlBytesToString (convertStringToMQBytes s) = s
  rw [henc]
  unfold correlBytesToString
  rw [stripTrailingZeros_append_zeros,
    stripTrailingZeros_eq_self
      (fun b hb => by have := mem_hexEncodeBytes_pos hb; omega),
    hexDecodeBytes_hexEncodeBytes s hbytes]

/-- C3 witness: the literal "Hello World" of TestCorrelIDParsing. -/
theorem correlID_roundtrip_short_witness :
    (goStr "Hello World").length ≤ 12 ∧
    hexDecodeBytes (goStr "Hello World") = none ∧
    setThenGetCorrelID (goStr "Hello World") = goStr "Hello World" :=
  ⟨by decide, by decide,
    correlID_roundtrip_short (goStr "Hello World") (by decide) (by decide)
      (by decide)⟩

/-- C4: stored correlation bytes that are all zero decode to the empty
string, and concretely a 50-character all-zero hex string encodes to an
all-zero buffer (25 zero bytes) and decodes back to the empty string. -/
theorem correlID_zero_collapse :
    (∀ bs : List Nat, (∀ b ∈ bs, b = 0) → correlBytesToString bs = []) ∧
    convertStringToMQBytes (List.replicate 50 48) = List.replicate 25 0 ∧
    setThenGetCorrelID (List.replicate 50 48) = [] := by
  refine ⟨?_, by decide, by decide⟩
  intro bs h
  unfold correlBytesToString
  rw [stripTrailingZeros_all_zero h]
  rfl

/-- C4 witness: three zero bytes decode to the empty string. -/
theorem correlID_zero_collapse_witness :
    correlBytesToString [0, 0, 0] = [] :=
  correlID_zero_collapse.1 [0, 0, 0] (by decide)

/-- The message-ID-format hex correlation string of TestCorrelIDParsing. -/
def msgIDHexStr : List Nat :=
  goStr "414d5120514d312020202020202020201017155c0255b621"

/-- C8: when hex-decoding the zero-stripped stored bytes fails,
GetJMSCorrelationID falls back to the hex rendering of the original
bytes; concretely the 48-character hex message-ID string passes through
SetJMSCorrelationID / GetJMSCorrelationID unchanged. -/
theorem correlID_hex_fallback :
    (∀ bs : List Nat, hexDecodeBytes (stripTrailingZeros bs) = none →
      correlBytesToString bs = hexEncodeBytes bs) ∧
    setThenGetCorrelID msgIDHexStr = msgIDHexStr := by
  constructor
  · intro bs h
    unfold correlBytesToString
    rw [h]
  · decide

/-- C8 witness: the raw byte 1 is not hex text, so it reads back as its
hex rendering "01". -/
theorem correlID_hex_fallback_witness :
    hexDecodeBytes (stripTrailingZeros [1]) = none ∧
    correlBytesToString [1] = hexEncodeBytes [1] :=
  ⟨by decide, correlID_hex_fallback.1 [1] (by decide)⟩

/-! ## Helper lemmas about the selector split -/

theorem goSplit_no_sep {sep : Nat} {l : List Nat} (h : sep ∉ l) :
    goSplit sep l = [l] := by
  induction l with
  | nil => rfl
  | cons b t ih =>
    have hb : ¬ b = sep := fun hbe => h (hbe ▸ List.mem_cons_self b t)
    have ht : sep ∉ t := fun hm => h (List.mem_cons_of_mem b hm)
    simp [goSplit, hb, ih ht]

theorem goSplit_pair {sep : Nat} {f v : List Nat} (hf : sep ∉ f)
    (hv : sep ∉ v) : goSplit sep (f ++ sep :: v) = [f, v] := by
  induction f with
  | nil => simp [goSplit, goSplit_no_sep hv]
  | cons b t ih =>
    have hb : ¬ b = sep := fun hbe => hf (hbe ▸ List.mem_cons_self b t)
    have ht : sep ∉ t := fun hm => hf (List.mem_cons_of_mem b hm)
    simp [goSplit, hb, ih ht]

theorem append_sep_ne_nil {sep : Nat} (f v : List Nat) :
    f ++ sep :: v ≠ [] := by
  cases f <;> simp

/-- C5: selector compilation — the empty selector succeeds and installs
no filter; a clause that does not split in exactly two parts around an
equals sign (in particular one with no equals sign at all) is rejected
as unparsable; a field name other than JMSCorrelationID / JMSMessageID
is rejected as an unsupported field; a value not wrapped in single
quotes is rejected as an unparsable quoted string; a value that is
empty after trimming and ID: stripping is rejected as having no value.
The spec counts the first, third and fourth rejections as
MalformedSelector and the second as UnsupportedSelectorField. -/
theorem applySelector_contract :
    applySelector [] = .ok none ∧
    (∀ s : List Nat, s ≠ [] → (61 : Nat) ∉ s →
      applySelector s = .error .unableToParseSelector) ∧
    (∀ f v : List Nat, (61 : Nat) ∉ f → (61 : Nat) ∉ v →
      trimSpace f ≠ goStr "JMSCorrelationID" →
      trimSpace f ≠ goStr "JMSMessageID" →
      applySelector (f ++ 61 :: v) = .error .unsupportedField) ∧
    (∀ f v : List Nat, (61 : Nat) ∉ f → (61 : Nat) ∉ v →
      (trimSpace f = goStr "JMSCorrelationID" ∨
        trimSpace f = goStr "JMSMessageID") →
      ¬(startsWithQuote (trimSpace v) = true ∧
        endsWithQuote (trimSpace v) = true) →
      applySelector (f ++ 61 :: v) = .error .unableToParseQuotedString) ∧
    (∀ f v : List Nat, (61 : Nat) ∉ f → (61 : Nat) ∉ v →
      (trimSpace f = goStr "JMSCorrelationID" ∨
        trimSpace f = goStr "JMSMessageID") →
      startsWithQuote (trimSpace v) = true →
      endsWithQuote (trimSpace v) = true →
      selectorInnerValue (trimSpace v) = [] →
      applySelector (f ++ 61 :: v) = .error .noValueFound) ∧
    isMalformedSelector .unableToParseSelector = true ∧
    isMalformedSelector .unableToParseQuotedString = true ∧
    isMalformedSelector .noValueFound = true ∧
    isMalformedSelector .unsupportedField = false := by
  refine ⟨rfl, ?_, ?_, ?_, ?_, rfl, rfl, rfl, rfl⟩
  · intro s hne hnotin
    unfold applySelector
    rw [if_neg hne, goSplit_no_sep hnotin]
  · intro f v hf hv hcorr hmsg
    unfold applySelector
    rw [if_neg (append_sep_ne_nil f v), goSplit_pair hf hv]
    simp only [ne_eq, hcorr, hmsg, not_false_iff, and_self, if_true]
  · intro f v hf hv hfield hquote
    unfold applySelector
    rw [if_neg (append_sep_ne_nil f v), goSplit_pair hf hv]
    have hcond : ¬(trimSpace f ≠ goStr "JMSCorrelationID" ∧
        trimSpace f ≠ goStr "JMSMessageID") := by
      rcases hfield with h | h <;> simp [h]
    simp [hcond, hquote]
  · intro f v hf hv hfield hq1 hq2 hinner
    unfold applySelector
    rw [if_neg (append_sep_ne_nil f v), goSplit_pair hf hv]
    have hcond : ¬(trimSpace f ≠ goStr "JMSCorrelationID" ∧
        trimSpace f ≠ goStr "JMSMessageID") := by
      rcases hfield with h | h <;> simp [h]
    simp [hcond, hq1, hq2, hinner]

/-- C5 witness: the concrete selectors rejected or accepted by
TestSelectorParsing. -/
theorem applySelector_contract_witness :
    applySelector [] = .ok none ∧
    applySelector (goStr "JMSCorrelationID") =
      .error .unableToParseSelector ∧
    applySelector (goStr "JMSPriority " ++ 61 :: (goStr " " ++ [39, 53, 39])) =
      .error .unsupportedField ∧
    applySelector (goStr "JMSCorrelationID " ++ 61 :: goStr " ") =
      .error .unableToParseQuotedString ∧
    applySelector (goStr "JMSMessageID " ++ 61 ::
        (goStr " " ++ [39, 73, 68, 58, 39])) = .error .noValueFound :=
  ⟨applySelector_contract.1,
    applySelector_contract.2.1 _ (by decide) (by decide),
    applySelector_contract.2.2.1 _ _ (by decide) (by decide) (by decide)
      (by decide),
    applySelector_contract.2.2.2.1 _ _ (by decide) (by decide)
      (Or.inl (by decide)) (by decide),
    applySelector_contract.2.2.2.2.1 _ _ (by decide) (by decide)
      (Or.inr (by decide)) (by decide) (by decide) (by decide)⟩

/-! ## Helper lemmas about the property store -/

theorem getPropsGoAux_exists (name : List Nat) (hname : name ≠ []) :
    ∀ (store : PropStore) (acc : List (List Nat)),
      (getPropsGoAux name store acc).1 = true ↔ ∃ v, (name, v) ∈ store := by
  intro store
  induction store with
  | nil => intro acc; simp [getPropsGoAux]
  | cons p t ih =>
    intro acc
    obtain ⟨n, w⟩ := p
    by_cases hn : n = name
    · subst hn
      simp [getPropsGoAux, hname]
    · simp only [getPropsGoAux, if_neg hname, if_neg hn, ih]
      constructor
      · rintro ⟨v, hv⟩
        exact ⟨v, List.mem_cons_of_mem _ hv⟩
      · rintro ⟨v, hv⟩
        rcases List.mem_cons.mp hv with h | h
        · exact absurd (congrArg Prod.fst h).symm hn
        · exact ⟨v, h⟩

theorem lookupProp_eq_none (store : PropStore) (name : List Nat)
    (h : ∀ v, (name, v) ∉ store) : lookupProp store name = none := by
  induction store with
  | nil => rfl
  | cons p t ih =>
    obtain ⟨n, w⟩ := p
    have hn : ¬ n = name := by
      intro he
      exact h w (he ▸ List.mem_cons_self (n, w) t)
    simp only [lookupProp, if_neg hn]
    exact ih (fun v hv => h v (List.mem_cons_of_mem _ hv))

theorem getPropsGoAux_names (store : PropStore) :
    ∀ acc : List (List Nat),
      (getPropsGoAux [] store acc).2 = acc ++ store.map Prod.fst := by
  induction store with
  | nil => intro acc; simp [getPropsGoAux]
  | cons p t ih =>
    intro acc
    obtain ⟨n, w⟩ := p
    simp [getPropsGoAux, ih]

theorem getPropertyNames_eq_map (store : PropStore) :
    getPropertyNames store = store.map Prod.fst := by
  unfold getPropertyNames getPropertiesInternal
  simpa using getPropsGoAux_names store []

theorem mem_deleteProp {store : PropStore} {p : List Nat × PropValue}
    {name : List Nat} (h : p ∈ deleteProp store name) :
    p ∈ store ∧ p.1 ≠ name := by
  have := List.mem_filter.mp h
  refine ⟨this.1, ?_⟩
  simpa using this.2

theorem clearLoop_all_ok (failOn : List Nat → Option Int) :
    ∀ (names : List (List Nat)) (store : PropStore),
      (∀ n ∈ names, failOn n = none) →
      (∀ p ∈ store, p.1 ∈ names) →
      clearLoop failOn names store = ([], none) := by
  intro names
  induction names with
  | nil =>
    intro store _ hstore
    have : store = [] := by
      cases store with
      | nil => rfl
      | cons p t => exact absurd (hstore p (List.mem_cons_self p t)) (by simp)
    simp [clearLoop, this]
  | cons n rest ih =>
    intro store hok hstore
    have hn : failOn n = none := hok n (List.mem_cons_self n rest)
    simp only [clearLoop, hn]
    refine ih (deleteProp store n) (fun m hm => hok m (List.mem_cons_of_mem _ hm)) ?_
    intro p hp
    obtain ⟨hmem, hne⟩ := mem_deleteProp hp
    rcases List.mem_cons.mp (hstore p hmem) with h | h
    · exact absurd h hne
    · exact h

theorem clearLoop_stops (failOn : List Nat → Option Int) :
    ∀ (pre : List (List Nat)) (bad : List Nat) (rc : Int)
      (post : List (List Nat)) (store : PropStore),
      (∀ n ∈ pre, failOn n = none) → failOn bad = some rc →
      clearLoop failOn (pre ++ bad :: post) store =
        (pre.foldl deleteProp store, some (.deleteFailed rc)) := by
  intro pre
  induction pre with
  | nil =>
    intro bad rc post store _ hbad
    simp [clearLoop, hbad]
  | cons n t ih =>
    intro bad rc post store hok hbad
    have hn : failOn n = none := hok n (List.mem_cons_self n t)
    simp only [List.cons_append, clearLoop, hn, List.foldl_cons]
    exact ih bad rc post (deleteProp store n)
      (fun m hm => hok m (List.mem_cons_of_mem _ hm)) hbad

/-! ## Claims about the property store -/

/-- C7: property existence depends only on the presence of an entry
with the given name, not on its value; setting an int property to 0
leaves the property present and readable as (0, no error); reading an
int property of an absent name gives the zero value with no error. -/
theorem propertyExists_contract :
    (∀ (store : PropStore) (name : List Nat), name ≠ [] →
      (propertyExists store name = true ↔ ∃ v, (name, v) ∈ store)) ∧
    propertyExists (setProp [] (goStr "p") (PropValue.int 0)) (goStr "p") =
      true ∧
    getIntProperty (setProp [] (goStr "p") (PropValue.int 0)) (goStr "p") =
      (0, none) ∧
    (∀ (store : PropStore) (name : List Nat), (∀ v, (name, v) ∉ store) →
      getIntProperty store name = (0, none)) := by
  refine ⟨?_, by decide, by decide, ?_⟩
  · intro store name hname
    exact getPropsGoAux_exists name hname store []
  · intro store name h
    unfold getIntProperty
    rw [lookupProp_eq_none store name h]

/-- C7 witness: a boolean property stored as false still exists, and a
name absent from a one-entry store reads back as the zero int. -/
theorem propertyExists_contract_witness :
    (propertyExists [(goStr "a", PropValue.bool false)] (goStr "a") = true ↔
      ∃ v, (goStr "a", v) ∈ [(goStr "a", PropValue.bool false)]) ∧
    getIntProperty [(goStr "a", PropValue.bool false)] (goStr "q") =
      (0, none) :=
  ⟨propertyExists_contract.1 [(goStr "a", PropValue.bool false)] (goStr "a")
      (by decide),
    propertyExists_contract.2.2.2 [(goStr "a", PropValue.bool false)]
      (goStr "q")
      (by
        intro v hv
        have h1 : goStr "q" = goStr "a" :=
          congrArg Prod.fst (List.mem_singleton.mp hv)
        exact absurd h1 (by decide))⟩

/-- C2 counterexample: an int property stored with value 1 is read back
by GetBooleanProperty as true with no error (as the in-src test
TestPropertyConversionInt asserts at line 1825), refuting the claim
that every stored numeric reads back as boolean false. -/
theorem getBooleanProperty_int_one :
    getBooleanProperty [(goStr "p", PropValue.int 1)] (goStr "p") =
      (true, none) := by decide

/-- C2 (amended): a stored int or double property read as boolean gives
no error and yields true exactly when the stored value equals 1; a
stored boolean is returned directly. -/
theorem getBooleanProperty_numeric :
    (∀ (store : PropStore) (name : List Nat) (i : Int),
      lookupProp store name = some (PropValue.int i) →
      getBooleanProperty store name = (decide (i = 1), none)) ∧
    (∀ (store : PropStore) (name : List Nat) (q : Rat),
      lookupProp store name = some (PropValue.dbl q) →
      getBooleanProperty store name = (decide (q = 1), none)) ∧
    (∀ (store : PropStore) (name : List Nat) (b : Bool),
      lookupProp store name = some (PropValue.bool b) →
      getBooleanProperty store name = (b, none)) := by
  refine ⟨?_, ?_, ?_⟩ <;>
    · intro store name x h
      unfold getBooleanProperty
      rw [h]

/-- C2 witness: a stored int 0 reads back as boolean false with no
error, a stored int 1 as true. -/
theorem getBooleanProperty_numeric_witness :
    getBooleanProperty [(goStr "z", PropValue.int 0)] (goStr "z") =
      (decide ((0 : Int) = 1), none) ∧
    getBooleanProperty [(goStr "o", PropValue.int 1)] (goStr "o") =
      (decide ((1 : Int) = 1), none) :=
  ⟨getBooleanProperty_numeric.1 _ _ 0 (by decide),
    getBooleanProperty_numeric.1 _ _ 1 (by decide)⟩

/-- C9: ClearProperties deletes every entry and reports no error when
every individual deletion succeeds; when a deletion fails it stops at
the first failing name and returns that error, with exactly the names
before the failure already deleted (no rollback). -/
theorem clearProperties_contract :
    (∀ (failOn : List Nat → Option Int) (store : PropStore),
      (∀ n ∈ getPropertyNames store, failOn n = none) →
      clearProperties failOn store = ([], none)) ∧
    (∀ (failOn : List Nat → Option Int) (store : PropStore)
      (pre : List (List Nat)) (bad : List Nat) (rc : Int)
      (post : List (List Nat)),
      getPropertyNames store = pre ++ bad :: post →
      (∀ n ∈ pre, failOn n = none) → failOn bad = some rc →
      clearProperties failOn store =
        (pre.foldl deleteProp store, some (.deleteFailed rc))) := by
  constructor
  · intro failOn store hok
    unfold clearProperties
    refine clearLoop_all_ok failOn (getPropertyNames store) store hok ?_
    intro p hp
    rw [getPropertyNames_eq_map]
    exact List.mem_map_of_mem Prod.fst hp
  · intro failOn store pre bad rc post hnames hok hbad
    unfold clearProperties
    rw [hnames]
    exact clearLoop_stops failOn pre bad rc post store hok hbad

/-- C9 witness: deleting three properties where the second deletion
fails removes only the first property and reports the failure. -/
theorem clearProperties_contract_witness :
    clearProperties
        (fun n => if n = goStr "b" then some 2046 else none)
        [(goStr "a", PropValue.int 1), (goStr "b", PropValue.int 2),
          (goStr "c", PropValue.int 3)] =
      ([goStr "a"].foldl deleteProp
        [(goStr "a", PropValue.int 1), (goStr "b", PropValue.int 2),
          (goStr "c", PropValue.int 3)],
        some (.deleteFailed 2046)) :=
  clearProperties_contract.2
    (fun n => if n = goStr "b" then some 2046 else none)
    [(goStr "a", PropValue.int 1), (goStr "b", PropValue.int 2),
      (goStr "c", PropValue.int 3)]
    [goStr "a"] (goStr "b") 2046 [goStr "c"]
    (by decide) (by decide) (by decide)

/-! ## Claims about receive and the async put check -/

/-- C10: for both Receive and ReceiveNoWait, when the transport get
fails with MQRC_NO_MSG_AVAILABLE the receive returns no message and no
error, and for any other transport reason it returns no message and a
JMSException whose error code is the decimal form of the reason code
and whose linked cause carries that reason; in both failure branches
the message handle allocated for the receive is deleted before
returning (and no finalizer is installed). -/
theorem receive_failure_contract :
    (∀ (sel : List Nat) (fo : Option (SelectorField × List Nat)) (w : Int),
      applySelector sel = .ok fo →
      receiveNoWait sel (.fail MQRC_NO_MSG_AVAILABLE) =
        ⟨none, none, true, false⟩ ∧
      receive sel w (.fail MQRC_NO_MSG_AVAILABLE) =
        ⟨none, none, true, false⟩) ∧
    (∀ (sel : List Nat) (fo : Option (SelectorField × List Nat)) (w : Int)
      (rc : Int),
      applySelector sel = .ok fo → rc ≠ MQRC_NO_MSG_AVAILABLE →
      receiveNoWait sel (.fail rc) =
        ⟨none, some ⟨mqrcToString rc, goItoa rc, some rc⟩, true, false⟩ ∧
      receive sel w (.fail rc) =
        ⟨none, some ⟨mqrcToString rc, goItoa rc, some rc⟩, true, false⟩) := by
  constructor
  · intro sel fo w hsel
    constructor <;>
      · simp only [receiveNoWait, receive, receiveInternal]
        rw [hsel]
        simp
  · intro sel fo w rc hsel hrc
    constructor <;>
      · simp only [receiveNoWait, receive, receiveInternal]
        rw [hsel]
        simp [hrc]

/-- C10 witness: with no selector, a get failing with reason 2033
(MQRC_NO_MSG_AVAILABLE) yields no message and no error, and one
failing with reason 2080 yields a JMSException with error code "2080";
the handle is deleted in both cases. -/
theorem receive_failure_contract_witness :
    (receiveNoWait [] (.fail MQRC_NO_MSG_AVAILABLE) =
        ⟨none, none, true, false⟩ ∧
      receive [] 5 (.fail MQRC_NO_MSG_AVAILABLE) =
        ⟨none, none, true, false⟩) ∧
    (receiveNoWait [] (.fail 2080) =
        ⟨none, some ⟨mqrcToString 2080, goItoa 2080, some 2080⟩, true,
          false⟩ ∧
      receive [] 5 (.fail 2080) =
        ⟨none, some ⟨mqrcToString 2080, goItoa 2080, some 2080⟩, true,
          false⟩) :=
  ⟨receive_failure_contract.1 [] none 5 rfl,
    receive_failure_contract.2 [] none 5 2080 rfl (by decide)⟩

/-- C6: in the TestAsyncPutCheckCountWithFailure scenario (check count
10, queue of maximum depth 25 never drained, 50 async sends numbered 0
to 49; the transport starts failing at send 25), no error is reported
on any send before send 30; send 30 reports an AsyncPutFailure counting
6 failures and 0 warnings since the previous check, linked to
MQRC_Q_FULL; the intervening sends 31 to 39 report nothing; send 40
reports an AsyncPutFailure counting the 10 failures since the check at
send 30; and the remaining sends report nothing — the counts are
cumulative since the last check and reset at each reconciliation. -/
theorem asyncPut_checkCount_scenario :
    asyncPutTestResults =
      List.replicate 30 none ++
        (some ⟨6, 0, MQRC_Q_FULL⟩ ::
          (List.replicate 9 none ++
            (some ⟨10, 0, MQRC_Q_FULL⟩ :: List.replicate 9 none))) := by
  decide
